import Mathlib

/-!
Shallow embedding of `src/src/component/VoiceToText.jsx` (the VoiceToText
React component): its transcript accumulator (`r.onresult`), restart logic
(`r.onend`), lifecycle toggle (`toggleListening`), clear handler
(`handleClear`) and language effect, together with a model of the external
SpeechRecognition engine capability it drives.

JavaScript strings are Lean `String`; JS numbers carrying confidence scores
are `ℚ` (no arithmetic is performed on them, they are only stored and
compared). JS string truthiness (`if (final)`, `t ? ... : ...`) is the test
against the empty string. A handler that evaluates an unbound identifier
raises a `ReferenceError`; handlers are embedded as total functions
returning the committed state together with an optional raised error,
since React state updates dispatched before the throw still commit.
-/

namespace VoiceToText

/-- Errors a handler can raise or an engine call can throw. -/
inductive JsError where
  | referenceErrorSetConfidence
  | invalidStateError
  deriving DecidableEq, Repr

/-- Entries appended to the console by the component
(`console.error` / `console.warn` calls); the only reporting channel the
component has for permission denial, start failure, stop failure and
engine errors. -/
inductive LogEvent where
  | permissionDenied
  | startWarn
  | stopWarn
  | speechError
  deriving DecidableEq, Repr

/-- One recognition result entry as read by the `onresult` loop: the top
alternative text `res[0].transcript`, the `res.isFinal` flag, and the top
alternative confidence `res[0].confidence` (`none` models the property
being absent, i.e. `undefined`). -/
structure SpeechResult where
  transcript : String
  isFinal : Bool
  confidence : Option ℚ
  deriving DecidableEq, Repr

/-- A result event: `event.resultIndex` and the full result list
`event.results`; the handler loop runs from `resultIndex` to the end of
`results`. -/
structure ResultEvent where
  resultIndex : Nat
  results : List SpeechResult
  deriving DecidableEq, Repr

/-- The entries the `onresult` loop actually visits:
`results[resultIndex ..]`. -/
def ResultEvent.entries (e : ResultEvent) : List SpeechResult :=
  e.results.drop e.resultIndex

/-- The setter names bound by `useState` in the component (source lines
11-15): `setSupported`, `setListening`, `setFinalTranscript`,
`setInterimTranscript`, `setLang`.  `setConfidence` is called at source
lines 55 and 126 but appears in no `useState` destructuring, so evaluating
it raises a `ReferenceError`. -/
def declaredSetters : List String :=
  ["setSupported", "setListening", "setFinalTranscript",
   "setInterimTranscript", "setLang"]

/-- Whether the identifier `setConfidence` is bound in the component. -/
def setConfidenceDeclared : Bool :=
  declaredSetters.contains "setConfidence"

/-- Modelled from the spec: the external Recognition Engine capability
(spec section 6) that `src` only drives, never implements.  `lang` is the
mutable language tag property; `running` whether a session is active;
`sessionLang` the language the active session actually transcribes with,
latched when `start()` succeeds — per the documented operational
constraint that language changes require a stop/start cycle (spec
section 4.1 and the component help text, source line 207);
`startCount` counts successful `start()` invocations. -/
structure Engine where
  lang : String
  running : Bool
  sessionLang : Option String
  startCount : Nat
  deriving DecidableEq, Repr

/-- `engine.start()`: throws `InvalidStateError` when already started
(source comment lines 109-111: some browsers throw if started twice);
otherwise begins a session transcribing with the currently configured
language tag. -/
def engineStart (e : Engine) : Except JsError Engine :=
  if e.running then .error .invalidStateError
  else .ok { e with running := true, sessionLang := some e.lang,
                    startCount := e.startCount + 1 }

/-- `engine.stop()`: throws when the engine is not running (an engine
already stopped or never started); the component always wraps this call in
`try`/`catch`. -/
def engineStop (e : Engine) : Except JsError Engine :=
  if e.running then .ok { e with running := false }
  else .error .invalidStateError

/-- The observable component state: the `useState` values `listening`
(the desired-state flag), `finalTranscript`, `interimTranscript`, `lang`,
plus the engine held in `recognitionRef`, the restart timer held in
`timerRef` (`some d` = a timeout of `d` ms is pending, at most one), and
the console log.  There is no confidence field because the component
declares no confidence state. -/
structure CompState where
  listening : Bool
  finalTranscript : String
  interimTranscript : String
  lang : String
  engine : Engine
  pendingRestart : Option Nat
  log : List LogEvent
  deriving DecidableEq, Repr

/-- JavaScript `String.prototype.trim`: removes leading and trailing
whitespace. -/
def jsTrim (s : String) : String :=
  ⟨((s.data.dropWhile Char.isWhitespace).reverse.dropWhile
      Char.isWhitespace).reverse⟩

/-- The `onresult` loop (source lines 38-46), fused exactly as written:
one pass over the visited entries accumulating
`final += res[0].transcript` for final entries,
`interim += res[0].transcript` for non-final ones (plain string
concatenation, no separator), and `highConfidence = res[0].confidence`
for each final entry (last write wins; `none` = still `null`). -/
def scanStep (acc : String × String × Option (Option ℚ)) (res : SpeechResult) :
    String × String × Option (Option ℚ) :=
  if res.isFinal then
    (acc.1 ++ res.transcript, acc.2.1, some res.confidence)
  else
    (acc.1, acc.2.1 ++ res.transcript, acc.2.2)

/-- The loop itself: fold `scanStep` over the visited entries starting
from `("", "", null)`. -/
def scanResults (rs : List SpeechResult) : String × String × Option (Option ℚ) :=
  rs.foldl scanStep ("", "", none)

/-- Specification-style accumulator: the concatenation of the final
entries top-alternative texts, in order. -/
def finalAccum : List SpeechResult → String
  | [] => ""
  | r :: rs => (if r.isFinal then r.transcript else "") ++ finalAccum rs

/-- Specification-style accumulator: the concatenation of the non-final
entries top-alternative texts, in order. -/
def interimAccum : List SpeechResult → String
  | [] => ""
  | r :: rs => (if r.isFinal then "" else r.transcript) ++ interimAccum rs

/-- The confidence of the last final entry of the batch, when one exists:
entries later in the batch take precedence (last write wins); the result
`some none` models a final entry whose confidence property is absent. -/
def lastFinalConf : List SpeechResult → Option (Option ℚ)
  | [] => none
  | r :: rs =>
    match lastFinalConf rs with
    | some c => some c
    | none => if r.isFinal then some r.confidence else none

/-- The `r.onresult` handler (source lines 33-56).  After the scan:
`if (final)` — JS truthiness, i.e. the accumulated final string is
non-empty — append it trimmed to `finalTranscript` (with a single
separating space when `finalTranscript` is itself truthy) and clear
`interimTranscript`; otherwise replace `interimTranscript` wholesale.
Then `if (highConfidence !== null) setConfidence(highConfidence)`:
reached whenever a final entry was seen (even an `undefined` confidence
differs from `null`), and since `setConfidence` is unbound this raises a
`ReferenceError` — after the transcript updates have been dispatched. -/
def r_onresult (e : ResultEvent) (s : CompState) : CompState × Option JsError :=
  let scanned := scanResults e.entries
  let fin := scanned.1
  let itm := scanned.2.1
  let hc := scanned.2.2
  let s1 :=
    if fin ≠ "" then
      { s with
        finalTranscript :=
          if s.finalTranscript ≠ "" then
            s.finalTranscript ++ " " ++ jsTrim fin
          else jsTrim fin,
        interimTranscript := "" }
    else
      { s with interimTranscript := itm }
  (s1,
   if hc.isSome then
     if setConfidenceDeclared then none
     else some .referenceErrorSetConfidence
   else none)

/-- The restart debounce delay of `setTimeout(() => r.start(), 150)`
(source line 64). -/
def restartDelayMs : Nat := 150

/-- The `r.onend` handler (source lines 58-66), parameterised by the
`listening` value its closure captured: `if (listening)` it clears any
pending timeout and schedules a fresh 150 ms restart (so at most one
restart is ever pending); otherwise it does nothing to the timer. -/
def r_onend (capturedListening : Bool) (s : CompState) : CompState :=
  if capturedListening then { s with pendingRestart := some restartDelayMs }
  else s

/-- The `listening` value the installed `r.onend` closure actually reads.
The handler is installed by the mount effect whose dependency array is
empty (source line 86), so the effect runs exactly once, after the first
render, where `listening` is its initial value `false`
(source line 12); later renders never reinstall the handler. -/
def mountCapturedListening : Bool := false

/-- The pending restart timeout firing: the callback `() => r.start()`
(source line 64) invokes `engine.start()` with no `try`/`catch`.  Returns
the new state and whether `engine.start` was invoked. -/
def fireTimer (s : CompState) : CompState × Bool :=
  match s.pendingRestart with
  | none => (s, false)
  | some _ =>
    match engineStart s.engine with
    | .ok eng => ({ s with engine := eng, pendingRestart := none }, true)
    | .error _ => ({ s with pendingRestart := none }, true)

/-- Outcome of the microphone permission acquisition
(`navigator.mediaDevices.getUserMedia({audio:true})`, source line 100). -/
inductive Permission where
  | granted
  | denied
  deriving DecidableEq, Repr

/-- The `toggleListening` handler (source lines 94-121), given the
resolution of the permission request.  Not listening: on denial log the
error and return (engine never touched); on grant `try { start();
setListening(true) } catch { warn }` — so a throwing start leaves
`listening` false.  Listening: `try { stop() } catch { warn }` then
`setListening(false)`; the restart timer is not touched on this path
(only the effect cleanup clears it, source line 75). -/
def toggleListening (perm : Permission) (s : CompState) : CompState :=
  if !s.listening then
    match perm with
    | .denied => { s with log := s.log ++ [.permissionDenied] }
    | .granted =>
      match engineStart s.engine with
      | .error _ => { s with log := s.log ++ [.startWarn] }
      | .ok eng => { s with engine := eng, listening := true }
  else
    let s1 : CompState :=
      match engineStop s.engine with
      | .error _ => { s with log := s.log ++ [.stopWarn] }
      | .ok eng => { s with engine := eng }
    { s1 with listening := false }

/-- The `handleClear` handler (source lines 123-127):
`setFinalTranscript(""); setInterimTranscript(""); setConfidence(null)`.
The first two updates are dispatched, then the unbound `setConfidence`
raises a `ReferenceError`. -/
def handleClear (s : CompState) : CompState × Option JsError :=
  ({ s with finalTranscript := "", interimTranscript := "" },
   if setConfidenceDeclared then none else some .referenceErrorSetConfidence)

/-- `setLang` plus the `[lang]` effect (source lines 88-92): the state
`lang` is updated immediately and, since the recognition instance exists,
the effect assigns `r.lang = lang` on it.  The running session language
(`sessionLang`) is untouched. -/
def setLanguage (tag : String) (s : CompState) : CompState :=
  { s with lang := tag, engine := { s.engine with lang := tag } }

/-! ## Lemmas: the fused scan loop computes the two accumulations and the
last final confidence -/

lemma foldl_scanStep (rs : List SpeechResult) (f i : String)
    (h : Option (Option ℚ)) :
    rs.foldl scanStep (f, i, h) =
      (f ++ finalAccum rs, i ++ interimAccum rs,
       match lastFinalConf rs with
       | some c => some c
       | none => h) := by
  induction rs generalizing f i h with
  | nil => simp [finalAccum, interimAccum, lastFinalConf]
  | cons r rs ih =>
    rw [List.foldl_cons]
    by_cases hf : r.isFinal
    · simp only [scanStep, hf, if_pos]
      rw [ih]
      simp only [finalAccum, interimAccum, lastFinalConf, hf, if_pos,
        String.append_assoc, String.empty_append]
      cases lastFinalConf rs <;> simp
    · simp only [scanStep, hf, if_neg, Bool.false_eq_true, not_false_iff]
      rw [ih]
      simp only [finalAccum, interimAccum, lastFinalConf, hf,
        String.append_assoc, String.empty_append]
      cases lastFinalConf rs <;> simp [hf]

lemma scanResults_eq (rs : List SpeechResult) :
    scanResults rs = (finalAccum rs, interimAccum rs, lastFinalConf rs) := by
  rw [scanResults, foldl_scanStep]
  cases lastFinalConf rs <;> simp [String.empty_append]

lemma finalAccum_of_no_final (rs : List SpeechResult)
    (h : ∀ r ∈ rs, r.isFinal = false) : finalAccum rs = "" := by
  induction rs with
  | nil => rfl
  | cons r rs ih =>
    have hr : r.isFinal = false := h r (List.mem_cons_self r rs)
    have hrs : ∀ x ∈ rs, x.isFinal = false := fun x hx => h x (List.mem_cons_of_mem r hx)
    simp [finalAccum, hr, ih hrs, String.empty_append]

lemma lastFinalConf_of_no_final (rs : List SpeechResult)
    (h : ∀ r ∈ rs, r.isFinal = false) : lastFinalConf rs = none := by
  induction rs with
  | nil => rfl
  | cons r rs ih =>
    have hr : r.isFinal = false := h r (List.mem_cons_self r rs)
    have hrs : ∀ x ∈ rs, x.isFinal = false := fun x hx => h x (List.mem_cons_of_mem r hx)
    simp [lastFinalConf, hr, ih hrs]

/-! ## Concrete engines, states and events used by witnesses and
counterexamples -/

def engIdle : Engine :=
  { lang := "en-US", running := false, sessionLang := none, startCount := 0 }

def engRunning : Engine :=
  { lang := "en-US", running := true, sessionLang := some "en-US",
    startCount := 1 }

def baseState : CompState :=
  { listening := false, finalTranscript := "", interimTranscript := "",
    lang := "en-US", engine := engIdle, pendingRestart := none, log := [] }

def evC1x : ResultEvent :=
  { resultIndex := 0, results := [⟨"", true, none⟩, ⟨"x", false, none⟩] }

def sC1x : CompState := { baseState with finalTranscript := "a" }

def evC1w : ResultEvent :=
  { resultIndex := 0, results := [⟨" hello world ", true, some (9/10)⟩] }

def sC1w : CompState := { baseState with finalTranscript := "abc" }

/-! ## C1 -/

/-- C1 (counterexample): the claim says every result event containing at
least one final entry clears `interimText` and trim-appends the batch
final text to `finalizedText`.  The code branches on JS truthiness of the
accumulated final string, not on the presence of a final entry: for the
event `[{transcript:"", isFinal:true}, {transcript:"x", isFinal:false}]`
against previous `finalizedText = "a"`, the handler takes the non-final
branch, leaving `finalizedText = "a"` and setting
`interimText = "x" ≠ ""`. -/
theorem C1_counterexample :
    (evC1x.entries.any (fun r => r.isFinal)) = true ∧
    (r_onresult evC1x sC1x).1.interimTranscript = "x" ∧
    ¬((r_onresult evC1x sC1x).1.interimTranscript = "" ∧
      (r_onresult evC1x sC1x).1.finalTranscript =
        sC1x.finalTranscript ++ " " ++ jsTrim (finalAccum evC1x.entries)) := by
  decide

/-- C1 (amended): for every result event whose accumulated final text
(the plain concatenation of the final entries top alternatives over the
visited range) is non-empty, the committed state after `onresult` has
`finalizedText` equal to the previous `finalizedText` with the accumulated
final text trimmed and appended — separated by a single space when the
previous `finalizedText` is non-empty, taken verbatim when it is empty —
and `interimText` equal to the empty string. -/
theorem C1_final_merge (e : ResultEvent) (s : CompState)
    (hfin : finalAccum e.entries ≠ "") :
    (r_onresult e s).1.finalTranscript =
      (if s.finalTranscript ≠ "" then
        s.finalTranscript ++ " " ++ jsTrim (finalAccum e.entries)
       else jsTrim (finalAccum e.entries)) ∧
    (r_onresult e s).1.interimTranscript = "" := by
  simp only [r_onresult, scanResults_eq]
  simp [hfin]

/-- C1 (witness): instantiating `C1_final_merge` on a concrete final
event against previous `finalizedText = "abc"`. -/
theorem C1_witness :
    finalAccum evC1w.entries ≠ "" ∧
    ((r_onresult evC1w sC1w).1.finalTranscript =
      (if sC1w.finalTranscript ≠ "" then
        sC1w.finalTranscript ++ " " ++ jsTrim (finalAccum evC1w.entries)
       else jsTrim (finalAccum evC1w.entries)) ∧
     (r_onresult evC1w sC1w).1.interimTranscript = "") :=
  ⟨by decide, C1_final_merge evC1w sC1w (by decide)⟩

/-! ## C3 -/

def evC3x : ResultEvent :=
  { resultIndex := 0, results := [⟨"a", false, none⟩, ⟨"b", false, none⟩] }

def sC3w : CompState := { baseState with interimTranscript := "old" }

/-- C3 (counterexample): the claim says a batch with no final entries
replaces `interimText` by the space-joined top alternatives.  The code
concatenates with no separator (`interim += res[0].transcript`, source
line 44): for the all-non-final event `["a", "b"]` the handler produces
`interimText = "ab"`, not `"a b"`. -/
theorem C3_counterexample :
    (∀ r ∈ evC3x.entries, r.isFinal = false) ∧
    (r_onresult evC3x baseState).1.interimTranscript = "ab" ∧
    (r_onresult evC3x baseState).1.interimTranscript ≠ "a b" := by
  decide

/-- C3 (amended): for every result event containing no final entries,
`interimText` after the merge equals the plain concatenation (no
separator) of the top-alternative texts of the visited entries — a
wholesale replacement of the previous `interimText` — while
`finalizedText` is unchanged and no error is raised. -/
theorem C3_interim_replace (e : ResultEvent) (s : CompState)
    (hnf : ∀ r ∈ e.entries, r.isFinal = false) :
    (r_onresult e s).1.interimTranscript = interimAccum e.entries ∧
    (r_onresult e s).1.finalTranscript = s.finalTranscript ∧
    (r_onresult e s).2 = none := by
  have h1 := finalAccum_of_no_final e.entries hnf
  have h2 := lastFinalConf_of_no_final e.entries hnf
  simp only [r_onresult, scanResults_eq]
  simp [h1, h2]

/-- C3 (witness): instantiating `C3_interim_replace` on the concrete
two-entry non-final event against a non-empty previous `interimText`. -/
theorem C3_witness :
    (∀ r ∈ evC3x.entries, r.isFinal = false) ∧
    ((r_onresult evC3x sC3w).1.interimTranscript = interimAccum evC3x.entries ∧
     (r_onresult evC3x sC3w).1.finalTranscript = sC3w.finalTranscript ∧
     (r_onresult evC3x sC3w).2 = none) :=
  ⟨by decide, C3_interim_replace evC3x sC3w (by decide)⟩

/-! ## C8 -/

def evC8x : ResultEvent :=
  { resultIndex := 1, results := [⟨"q", true, some (1/2)⟩] }

def sC8x : CompState := { baseState with interimTranscript := "hello" }

def evC8w : ResultEvent := { resultIndex := 2, results := [] }

/-- C8 (counterexample): the claim says an event with zero visited
entries is a no-op.  The code still takes the non-final branch and
executes `setInterimTranscript(interim)` with `interim = ""` (source
line 52): with previous `interimText = "hello"` and an event whose
`resultIndex` equals the result list length, `interimText` is wiped to
`""`, so the state is not unchanged. -/
theorem C8_counterexample :
    evC8x.entries = [] ∧
    sC8x.interimTranscript = "hello" ∧
    (r_onresult evC8x sC8x).1.interimTranscript ≠ sC8x.interimTranscript := by
  decide

/-- C8 (amended): for every result event with zero visited entries
(`resultIndex` at or past the end of the result list), the merge leaves
`finalizedText` unchanged, raises no error and attempts no confidence
update, but wholesale-replaces `interimText` with the empty string — so
the merge is a no-op only when `interimText` was already empty. -/
theorem C8_empty_event (e : ResultEvent) (s : CompState)
    (h : e.entries = []) :
    (r_onresult e s).1.finalTranscript = s.finalTranscript ∧
    (r_onresult e s).1.interimTranscript = "" ∧
    (r_onresult e s).2 = none := by
  simp only [r_onresult, scanResults_eq, h]
  simp [finalAccum, interimAccum, lastFinalConf]

/-- C8 (witness): instantiating `C8_empty_event` on a concrete
zero-entry event. -/
theorem C8_witness :
    evC8w.entries = [] ∧
    ((r_onresult evC8w baseState).1.finalTranscript = baseState.finalTranscript ∧
     (r_onresult evC8w baseState).1.interimTranscript = "" ∧
     (r_onresult evC8w baseState).2 = none) :=
  ⟨by decide, C8_empty_event evC8w baseState (by decide)⟩

/-! ## C2 -/

def sC2x : CompState :=
  { baseState with listening := true, engine := engRunning }

/-- C2 (code evaluation): the restart comment (source line 59) and the
spec say that while listening an `end` event schedules one debounced
restart that invokes `engine.start` after 150 ms.  The installed `onend`
handler reads the `listening` value its closure captured when the mount
effect (empty dependency array, source line 86) installed it — the
initial `false` — not the current state: with the current state listening
(`sC2x.listening = true`), the handler changes nothing, no timeout is
pending afterwards, and firing the (absent) timer never invokes
`engine.start`. -/
theorem C2_no_restart_scheduled :
    mountCapturedListening = false ∧
    sC2x.listening = true ∧
    r_onend mountCapturedListening sC2x = sC2x ∧
    (r_onend mountCapturedListening sC2x).pendingRestart = none ∧
    (fireTimer (r_onend mountCapturedListening sC2x)).2 = false := by
  decide

/-! ## C4 -/

def sC4x : CompState :=
  { baseState with finalTranscript := "hello world",
                   interimTranscript := "more" }

/-- C4 (code evaluation): `handleClear` dispatches the two transcript
resets and then evaluates `setConfidence(null)` (source line 126), but
`setConfidence` appears in no `useState` destructuring of the component,
so the call raises a `ReferenceError` — `clear()` does throw, on every
invocation, and there is no confidence state to reset. -/
theorem C4_clear_raises :
    setConfidenceDeclared = false ∧
    (handleClear sC4x).1.finalTranscript = "" ∧
    (handleClear sC4x).1.interimTranscript = "" ∧
    (handleClear sC4x).2 = some JsError.referenceErrorSetConfidence := by
  decide

/-! ## C5 -/

def evC5x : ResultEvent :=
  { resultIndex := 0, results := [⟨"hello world", true, some (9/10)⟩] }

def sC5x : CompState := { baseState with interimTranscript := "hello" }

/-- C5 (code evaluation): on the spec scenario-2 event
`{index:0, alt:"hello world", isFinal:true, confidence:0.9}` the handler
commits `finalizedText = "hello world"` and `interimText = ""`, then
reaches `setConfidence(highConfidence)` (source line 55); `setConfidence`
is unbound, so instead of publishing `lastConfidence = 0.9` the handler
raises a `ReferenceError` — no confidence state exists in the
component at all. -/
theorem C5_confidence_raises :
    (r_onresult evC5x sC5x).1.finalTranscript = "hello world" ∧
    (r_onresult evC5x sC5x).1.interimTranscript = "" ∧
    (r_onresult evC5x sC5x).2 = some JsError.referenceErrorSetConfidence := by
  decide

/-! ## C6 -/

def sC6x : CompState :=
  { baseState with listening := true, engine := engRunning,
                   pendingRestart := some restartDelayMs }

/-- C6 (counterexample): the claim says `requestStop()` invalidates any
pending restart token so that a restart scheduled before the stop can
never fire afterwards.  The stop branch of `toggleListening` (source
lines 113-120) never touches `timerRef` — only the effect cleanup clears
it: from a state with a pending 150 ms restart, after the stop the token
is still pending, and when it fires it invokes `engine.start`, leaving
the engine running while `listening = false`. -/
theorem C6_counterexample :
    sC6x.pendingRestart = some restartDelayMs ∧
    (toggleListening Permission.granted sC6x).listening = false ∧
    (toggleListening Permission.granted sC6x).pendingRestart =
      some restartDelayMs ∧
    (fireTimer (toggleListening Permission.granted sC6x)).2 = true ∧
    (fireTimer (toggleListening Permission.granted sC6x)).1.engine.running =
      true := by
  decide

/-- C6 (amended): `requestStop()` sets the listening flag to false and
instructs the engine to stop, swallowing a failure from an engine already
stopped or never started (afterwards the engine is not running in either
case, and at worst a stop warning is logged); it leaves the transcript
untouched and an engine `end` event arriving afterwards schedules no
restart.  It does not, however, invalidate a pending restart token: the
timer field passes through unchanged. -/
theorem C6_stop (s : CompState) (perm : Permission)
    (h : s.listening = true) :
    (toggleListening perm s).listening = false ∧
    (toggleListening perm s).engine.running = false ∧
    (toggleListening perm s).pendingRestart = s.pendingRestart ∧
    (toggleListening perm s).finalTranscript = s.finalTranscript ∧
    (toggleListening perm s).interimTranscript = s.interimTranscript ∧
    ((toggleListening perm s).log = s.log ∨
     (toggleListening perm s).log = s.log ++ [LogEvent.stopWarn]) ∧
    (r_onend mountCapturedListening (toggleListening perm s)).pendingRestart =
      (toggleListening perm s).pendingRestart := by
  by_cases hr : s.engine.running <;>
    simp [toggleListening, engineStop, r_onend, mountCapturedListening, h, hr]

/-- C6 (witness): instantiating `C6_stop` on a concrete listening state
with a running engine. -/
theorem C6_witness :
    sC6x.listening = true ∧
    ((toggleListening Permission.granted sC6x).listening = false ∧
     (toggleListening Permission.granted sC6x).engine.running = false ∧
     (toggleListening Permission.granted sC6x).pendingRestart =
       sC6x.pendingRestart ∧
     (toggleListening Permission.granted sC6x).finalTranscript =
       sC6x.finalTranscript ∧
     (toggleListening Permission.granted sC6x).interimTranscript =
       sC6x.interimTranscript ∧
     ((toggleListening Permission.granted sC6x).log = sC6x.log ∨
      (toggleListening Permission.granted sC6x).log =
        sC6x.log ++ [LogEvent.stopWarn]) ∧
     (r_onend mountCapturedListening
        (toggleListening Permission.granted sC6x)).pendingRestart =
       (toggleListening Permission.granted sC6x).pendingRestart) :=
  ⟨by decide, C6_stop sC6x Permission.granted (by decide)⟩

/-! ## C7 -/

/-- C7: when the permission acquisition resolves denied while not
listening, `toggleListening` logs the permission-denied report and
returns: the listening flag stays false, the engine value — in
particular its count of successful starts — is untouched (engine start is
never reached, source lines 101-104), and the only observable effect is
the `PermissionDenied` console report. -/
theorem C7_permission_denied (s : CompState) (h : s.listening = false) :
    (toggleListening Permission.denied s).listening = false ∧
    (toggleListening Permission.denied s).engine = s.engine ∧
    (toggleListening Permission.denied s).engine.startCount =
      s.engine.startCount ∧
    (toggleListening Permission.denied s).finalTranscript = s.finalTranscript ∧
    (toggleListening Permission.denied s).interimTranscript =
      s.interimTranscript ∧
    (toggleListening Permission.denied s).log =
      s.log ++ [LogEvent.permissionDenied] := by
  simp [toggleListening, h]

/-- C7 (witness): instantiating `C7_permission_denied` on the initial
component state. -/
theorem C7_witness :
    baseState.listening = false ∧
    ((toggleListening Permission.denied baseState).listening = false ∧
     (toggleListening Permission.denied baseState).engine = baseState.engine ∧
     (toggleListening Permission.denied baseState).engine.startCount =
       baseState.engine.startCount ∧
     (toggleListening Permission.denied baseState).finalTranscript =
       baseState.finalTranscript ∧
     (toggleListening Permission.denied baseState).interimTranscript =
       baseState.interimTranscript ∧
     (toggleListening Permission.denied baseState).log =
       baseState.log ++ [LogEvent.permissionDenied]) :=
  ⟨by decide, C7_permission_denied baseState (by decide)⟩

/-! ## C9 -/

def sC9w : CompState :=
  { baseState with listening := true, engine := engRunning }

/-- C9: `setLanguage(tag)` — the `setLang` state update together with the
`[lang]` effect — updates the component language and the engine language
tag property immediately, but the language the active session transcribes
with (`sessionLang`, latched at `start()`) is unchanged; only after a
stop/start cycle (the next engine acquisition) does the session language
become the new tag. -/
theorem C9_language_effect (s : CompState) (tag : String)
    (h1 : s.listening = true) (h2 : s.engine.running = true) :
    (setLanguage tag s).lang = tag ∧
    (setLanguage tag s).engine.lang = tag ∧
    (setLanguage tag s).engine.sessionLang = s.engine.sessionLang ∧
    (toggleListening Permission.granted
      (toggleListening Permission.granted
        (setLanguage tag s))).engine.sessionLang = some tag := by
  simp [setLanguage, toggleListening, engineStop, engineStart, h1, h2]

/-- C9 (witness): instantiating `C9_language_effect` with a switch to
Hindi on a concrete listening state with a running session. -/
theorem C9_witness :
    sC9w.listening = true ∧
    sC9w.engine.running = true ∧
    ((setLanguage "hi-IN" sC9w).lang = "hi-IN" ∧
     (setLanguage "hi-IN" sC9w).engine.lang = "hi-IN" ∧
     (setLanguage "hi-IN" sC9w).engine.sessionLang = sC9w.engine.sessionLang ∧
     (toggleListening Permission.granted
       (toggleListening Permission.granted
         (setLanguage "hi-IN" sC9w))).engine.sessionLang = some "hi-IN") :=
  ⟨by decide, by decide, C9_language_effect sC9w "hi-IN" (by decide) (by decide)⟩

/-! ## C10 -/

def sC10w : CompState :=
  { baseState with engine := engRunning }

/-- C10: when permission is granted while not listening but
`engine.start()` throws (the engine is already started: source comment
lines 109-111), the catch swallows the error as a console warning and
`setListening(true)` is never reached — the listening flag stays false
and the transcript state is untouched. -/
theorem C10_failed_start (s : CompState)
    (h1 : s.listening = false) (h2 : s.engine.running = true) :
    (toggleListening Permission.granted s).listening = false ∧
    (toggleListening Permission.granted s).finalTranscript =
      s.finalTranscript ∧
    (toggleListening Permission.granted s).interimTranscript =
      s.interimTranscript ∧
    (toggleListening Permission.granted s).log =
      s.log ++ [LogEvent.startWarn] := by
  simp [toggleListening, engineStart, h1, h2]

/-- C10 (witness): instantiating `C10_failed_start` on a concrete
not-listening state whose engine is already running. -/
theorem C10_witness :
    sC10w.listening = false ∧
    sC10w.engine.running = true ∧
    ((toggleListening Permission.granted sC10w).listening = false ∧
     (toggleListening Permission.granted sC10w).finalTranscript =
       sC10w.finalTranscript ∧
     (toggleListening Permission.granted sC10w).interimTranscript =
       sC10w.interimTranscript ∧
     (toggleListening Permission.granted sC10w).log =
       sC10w.log ++ [LogEvent.startWarn]) :=
  ⟨by decide, by decide, C10_failed_start sC10w (by decide) (by decide)⟩

end VoiceToText
